import Mathlib

/-!
# Verification of the mirror sync bot

A shallow embedding of `sync_mirrors.py` (class `MirrorSyncBot` and `main`),
together with theorems settling the specification claims about it.

Strings manipulated character-by-character (Python `str.replace`) are
modelled as `List Char`; all other strings are Lean `String`s.
-/

set_option maxRecDepth 10000

/-- One repository object as returned by the organization listing endpoint
(`get_org_repos`): the source only reads `repo["name"]` and
`repo["clone_url"]`. -/
structure Repo where
  name : String
  clone_url : String
deriving DecidableEq, Repr

/-- One mirror work item. The source stores `repo["mirror_source"]` on the
repo dict; we carry the three fields `sync_mirror` reads: `name`,
`clone_url` (the mirror, i.e. push destination) and `mirror_source`. -/
structure MirrorTask where
  name : String
  mirror : String
  source : String
deriving DecidableEq, Repr

/-- Lookup in the dict built by
`{prop["property_name"]: prop["value"] for prop in properties}` followed by
`.get(key)`: successive assignments override, so the last entry with the
key wins.  The association list keeps the endpoint's order; `dictGet`
realizes Python dict-comprehension-then-get semantics. -/
def dictGet (props : List (String × String)) (key : String) : Option String :=
  props.foldl (fun acc p => if p.1 = key then some p.2 else acc) none

/-- The response of the per-repo property-values endpoint, as seen by
`get_repo_custom_properties`: an HTTP status and the decoded list of
`(property_name, value)` pairs. -/
structure PropResponse where
  status : Nat
  props : List (String × String)
deriving DecidableEq, Repr

/-- `MirrorSyncBot.get_repo_custom_properties` (src/sync_mirrors.py:54-69):
`response.raise_for_status()` raises `HTTPError` exactly for a status in
`[400, 600)`; the handler returns an empty dict on 404 and re-raises
otherwise.  For any status outside that range (including non-standard
codes of 600 and above) no exception is raised and the JSON list becomes
the property dict (represented by the association list, read through
`dictGet`). -/
def get_repo_custom_properties (resp : PropResponse) :
    Except Nat (List (String × String)) :=
  if 400 ≤ resp.status ∧ resp.status < 600 then
    if resp.status = 404 then Except.ok [] else Except.error resp.status
  else
    Except.ok resp.props

/-- The per-repo body of the loop in `get_mirror_repos`
(src/sync_mirrors.py:82-89): a task is built exactly when
`properties.get("repo-type") == "mirror"` and
`properties.get("mirror-source")` is truthy (present and non-empty). -/
def classify (props : List (String × String)) (repo : Repo) : Option MirrorTask :=
  if dictGet props "repo-type" = some "mirror" then
    match dictGet props "mirror-source" with
    | some src => if src ≠ "" then some ⟨repo.name, repo.clone_url, src⟩ else none
    | none => none
  else none

/-- `MirrorSyncBot.get_mirror_repos` (src/sync_mirrors.py:71-92), with the
already-fetched property lists supplied by `props` (one lookup per repo
name) and the discovery network phase abstracted away: filters the listing
in order, keeping classified mirrors. -/
def get_mirror_repos (props : String → List (String × String))
    (repos : List Repo) : List MirrorTask :=
  repos.filterMap (fun r => classify (props r.name) r)

/-- The diagnostic lines `get_mirror_repos` prints for one repository
(src/sync_mirrors.py:78-89). -/
def mirrorLogLines (props : List (String × String)) (r : Repo) : List String :=
  ("Checking repo: " ++ r.name) ::
    (if dictGet props "repo-type" = some "mirror" then
      match dictGet props "mirror-source" with
      | some src =>
          if src ≠ "" then
            ["  ✓ Mirror found: " ++ r.name ++ " -> " ++ src]
          else
            ["  ✗ Repo " ++ r.name ++ " is marked as mirror but has no mirror-source"]
      | none =>
          ["  ✗ Repo " ++ r.name ++ " is marked as mirror but has no mirror-source"]
    else [])

/-- `get_mirror_repos` with the property fetch kept fallible
(src/sync_mirrors.py:71-92 together with lines 54-69): a `TransportError`
raised while fetching any repo's properties propagates and aborts the
whole discovery. -/
def get_mirror_repos_fallible (oracle : String → PropResponse) :
    List Repo → Except Nat (List MirrorTask)
  | [] => Except.ok []
  | r :: rest =>
    match get_repo_custom_properties (oracle r.name) with
    | Except.error e => Except.error e
    | Except.ok pm =>
      match get_mirror_repos_fallible oracle rest with
      | Except.error e => Except.error e
      | Except.ok tasks =>
        match classify pm r with
        | some t => Except.ok (t :: tasks)
        | none => Except.ok tasks

/-- One page request issued by `get_org_repos`: the `page` and `per_page`
query parameters (src/sync_mirrors.py:39). -/
structure PageRequest where
  page : Nat
  per_page : Nat
deriving DecidableEq, Repr

/-- `MirrorSyncBot.get_org_repos` (src/sync_mirrors.py:31-52), with the
listing endpoint abstracted as `fetch page per_page`.  The Python `while
True` loop is modelled with explicit fuel (`none` = the loop has not
terminated within `fuel` iterations); each iteration requests one page
with `per_page = 100`, stops on an empty batch, otherwise extends the
accumulated list and advances the page number.  Returns the list of page
requests actually issued together with the concatenated repositories. -/
def get_org_repos (fetch : Nat → Nat → List Repo) :
    Nat → Nat → Option (List PageRequest × List Repo)
  | 0, _ => none
  | fuel + 1, page =>
    let batch := fetch page 100
    if batch = [] then some ([⟨page, 100⟩], [])
    else
      match get_org_repos fetch fuel (page + 1) with
      | none => none
      | some (reqs, repos) => some (⟨page, 100⟩ :: reqs, batch ++ repos)

/-- Fuel-indexed core of Python `str.replace(old, new)` over `List Char`:
scan left to right; at each position, if `old` is a (non-empty) literal
occurrence starting here, emit `new` and resume after the occurrence,
otherwise keep one character.  This is Python's leftmost, non-overlapping
replacement of every occurrence.  The fuel only bounds recursion depth;
`pyReplace` supplies enough fuel for the scan to finish. -/
def pyReplaceFuel (old new : List Char) : Nat → List Char → List Char
  | 0, s => s
  | fuel + 1, s =>
    match s with
    | [] => []
    | c :: cs =>
      if old ≠ [] ∧ old.isPrefixOf (c :: cs) then
        new ++ pyReplaceFuel old new fuel (List.drop old.length (c :: cs))
      else
        c :: pyReplaceFuel old new fuel cs

/-- Python `s.replace(old, new)` over `List Char`.  For the empty pattern
(which Python treats by inserting `new` between characters) this model
returns `s` unchanged; both call sites in the source (`self.github_token`
after the startup truthiness check, and `"https://"`) pass a non-empty
pattern. -/
def pyReplace (old new s : List Char) : List Char :=
  pyReplaceFuel old new s.length s

/-- The fixed placeholder used by `sync_mirror`'s failure handler
(src/sync_mirrors.py:145-155). -/
def placeholderChars : List Char := "***TOKEN***".toList

/-- The sanitization `sync_mirror` applies to the joined command, stdout
and stderr before printing them:
`text.replace(self.github_token, "***TOKEN***")`
(src/sync_mirrors.py:145,150,154). -/
def sanitize (token text : List Char) : List Char :=
  pyReplace token placeholderChars text

/-- The literal `"https://"` (src/sync_mirrors.py:123). -/
def httpsChars : List Char := "https://".toList

/-- The replacement string `f"https://x-access-token:{self.github_token}@"`
(src/sync_mirrors.py:124). -/
def authReplacement (token : List Char) : List Char :=
  "https://x-access-token:".toList ++ token ++ "@".toList

/-- The push destination URL built by `sync_mirror`
(src/sync_mirrors.py:122-125):
`mirror_url.replace("https://", f"https://x-access-token:{token}@")`. -/
def buildPushUrl (token mirror : List Char) : List Char :=
  pyReplace httpsChars (authReplacement token) mirror

/-- The outcome record of one orchestration pass. -/
structure RunReport where
  attempted : List MirrorTask
  succeeded : Nat
  failed : Nat
  lines : List String
  exitCode : Nat
deriving DecidableEq, Repr

/-- The `'='*60` separator line printed around the summary. -/
def sepLine : String := String.mk (List.replicate 60 '=')

/-- One iteration of the loop in `sync_all_mirrors`
(src/sync_mirrors.py:169-173): the task is handed to `sync_mirror`
(abstracted as the `outcome` oracle, recorded in the attempted trace) and
the success or failure counter is bumped. -/
def syncStep (outcome : MirrorTask → Bool)
    (acc : List MirrorTask × Nat × Nat) (t : MirrorTask) :
    List MirrorTask × Nat × Nat :=
  if outcome t then (acc.1 ++ [t], acc.2.1 + 1, acc.2.2)
  else (acc.1 ++ [t], acc.2.1, acc.2.2 + 1)

/-- `MirrorSyncBot.sync_all_mirrors` (src/sync_mirrors.py:158-183) given
the discovered task list: on an empty list it reports and returns (so the
process later exits 0); otherwise it attempts every task in order,
tallies, prints the summary, and exits 1 exactly when `failure_count > 0`. -/
def sync_all_mirrors (outcome : MirrorTask → Bool)
    (tasks : List MirrorTask) : RunReport :=
  if tasks = [] then
    ⟨[], 0, 0, ["No mirror repositories found."], 0⟩
  else
    let acc := tasks.foldl (syncStep outcome) ([], 0, 0)
    ⟨acc.1, acc.2.1, acc.2.2,
      ["", sepLine, "Sync Summary:",
        "  Total mirrors: " ++ toString tasks.length,
        "  Successful: " ++ toString acc.2.1,
        "  Failed: " ++ toString acc.2.2,
        sepLine],
      if acc.2.2 > 0 then 1 else 0⟩

/-- Result of running the whole process: printed lines, exit status, and
how many network requests were performed. -/
structure MainResult where
  lines : List String
  exitCode : Nat
  networkCalls : Nat
deriving DecidableEq, Repr

/-- Python truthiness of `os.environ.get(...)`: `None` and `""` are falsy. -/
def truthyOpt : Option String → Bool
  | none => false
  | some s => !(s == "")

/-- `main` (src/sync_mirrors.py:186-202): read the two environment
variables; if either is missing or empty, print the explanatory error and
exit 1 without constructing the bot (hence zero network calls); otherwise
announce the start and run the bot (abstracted as `bot token org`). -/
def mainModel (env : String → Option String)
    (bot : String → String → MainResult) : MainResult :=
  if truthyOpt (env "GITHUB_TOKEN") = false then
    ⟨["Error: GITHUB_TOKEN environment variable is required"], 1, 0⟩
  else if truthyOpt (env "GITHUB_ORGANIZATION") = false then
    ⟨["Error: GITHUB_ORGANIZATION environment variable is required"], 1, 0⟩
  else
    let org := (env "GITHUB_ORGANIZATION").getD ""
    let result := bot ((env "GITHUB_TOKEN").getD "") org
    ⟨("Starting Mirror Sync Bot for organization: " ++ org) :: result.lines,
      result.exitCode, result.networkCalls⟩

/-- Example repository used in concrete evaluations. -/
def repoA : Repo := ⟨"repo", "https://example.com/org/repo.git"⟩

/-- A listing endpoint that serves pages of sizes 100, 100, 37 and then
an empty page, for the pagination scenario of the spec. -/
def pagesFetch : Nat → Nat → List Repo := fun page _ =>
  if page = 1 then List.replicate 100 repoA
  else if page = 2 then List.replicate 100 repoA
  else if page = 3 then List.replicate 37 repoA
  else []

/-- Three concrete tasks for the failure-isolation scenario. -/
def wTasks : List MirrorTask :=
  [⟨"a", "https://h/a.git", "https://u/a.git"⟩,
   ⟨"b", "https://h/b.git", "https://u/b.git"⟩,
   ⟨"c", "https://h/c.git", "https://u/c.git"⟩]

/-- Outcome oracle under which exactly the second task of `wTasks` fails. -/
def wOutcome : MirrorTask → Bool := fun t => !(t.name == "b")

/-!
## Helper lemmas
-/

theorem pyReplaceFuel_mono (old new : List Char) :
    ∀ f₁ f₂ s, s.length ≤ f₁ → s.length ≤ f₂ →
      pyReplaceFuel old new f₁ s = pyReplaceFuel old new f₂ s := by
  intro f₁
  induction f₁ with
  | zero =>
    intro f₂ s h₁ _
    have hs : s = [] := List.eq_nil_of_length_eq_zero (Nat.le_zero.mp h₁)
    subst hs
    cases f₂ <;> rfl
  | succ f ih =>
    intro f₂ s h₁ h₂
    cases s with
    | nil => cases f₂ <;> rfl
    | cons c cs =>
      cases f₂ with
      | zero => simp at h₂
      | succ f₂' =>
        simp only [pyReplaceFuel]
        by_cases hc : old ≠ [] ∧ old.isPrefixOf (c :: cs)
        · rw [if_pos hc, if_pos hc]
          congr 1
          have hold : 0 < old.length := List.length_pos.mpr hc.1
          apply ih
          · simp only [List.length_drop, List.length_cons]
            simp only [List.length_cons] at h₁
            omega
          · simp only [List.length_drop, List.length_cons]
            simp only [List.length_cons] at h₂
            omega
        · rw [if_neg hc, if_neg hc]
          congr 1
          apply ih
          · simp only [List.length_cons] at h₁; omega
          · simp only [List.length_cons] at h₂; omega

theorem pyReplace_nil (old new : List Char) : pyReplace old new [] = [] := rfl

theorem pyReplace_cons (old new : List Char) (c : Char) (cs : List Char) :
    pyReplace old new (c :: cs) =
      if old ≠ [] ∧ old.isPrefixOf (c :: cs) then
        new ++ pyReplace old new (List.drop old.length (c :: cs))
      else
        c :: pyReplace old new cs := by
  show pyReplaceFuel old new (cs.length + 1) (c :: cs) = _
  simp only [pyReplaceFuel]
  by_cases hc : old ≠ [] ∧ old.isPrefixOf (c :: cs)
  · rw [if_pos hc, if_pos hc]
    congr 1
    have hold : 0 < old.length := List.length_pos.mpr hc.1
    apply pyReplaceFuel_mono
    · simp only [List.length_drop, List.length_cons]; omega
    · exact le_rfl
  · rw [if_neg hc, if_neg hc]
    congr 1

theorem prefOfBool {l₁ l₂ : List Char} : l₁.isPrefixOf l₂ ↔ l₁ <+: l₂ :=
  List.isPrefixOf_iff_prefix

theorem infixOfPref {l₁ l₂ : List Char} (h : l₁ <+: l₂) : l₁ <:+: l₂ := by
  obtain ⟨t, rfl⟩ := h
  exact ⟨[], t, rfl⟩

theorem infixCons {l₁ l₂ : List Char} (a : Char) (h : l₁ <:+: l₂) :
    l₁ <:+: a :: l₂ := by
  obtain ⟨s, t, rfl⟩ := h
  exact ⟨a :: s, t, rfl⟩

theorem replace_unchanged (old new : List Char) :
    ∀ s, ¬ old <:+: s → pyReplace old new s = s := by
  intro s
  induction s with
  | nil => intro _; rfl
  | cons c cs ih =>
    intro h
    rw [pyReplace_cons]
    have hnp : ¬ (old ≠ [] ∧ old.isPrefixOf (c :: cs)) := by
      rintro ⟨_, h2⟩
      exact h (infixOfPref (prefOfBool.mp h2))
    rw [if_neg hnp, ih (fun hin => h (infixCons c hin))]

theorem replace_head (old new rest : List Char) (h : old ≠ []) :
    pyReplace old new (old ++ rest) = new ++ pyReplace old new rest := by
  cases old with
  | nil => exact absurd rfl h
  | cons a as =>
    rw [List.cons_append, pyReplace_cons]
    have hc : (a :: as) ≠ [] ∧ (a :: as).isPrefixOf (a :: (as ++ rest)) := by
      refine ⟨by simp, prefOfBool.mpr ?_⟩
      rw [← List.cons_append]
      exact List.prefix_append _ _
    have hd : List.drop (a :: as).length (a :: (as ++ rest)) = rest := by
      rw [← List.cons_append]
      exact List.drop_left _ _
    rw [if_pos hc, hd]

theorem prefix_append_cases :
    ∀ (U V t : List Char), t <+: U ++ V → t <+: U ∨ ∃ q, t = U ++ q ∧ q <+: V := by
  intro U
  induction U with
  | nil =>
    intro V t h
    right
    exact ⟨t, rfl, h⟩
  | cons a U' ih =>
    intro V t h
    cases t with
    | nil => left; exact List.nil_prefix
    | cons b t' =>
      rw [List.cons_append] at h
      obtain ⟨rfl, h'⟩ := List.cons_prefix_cons.mp h
      rcases ih V t' h' with h1 | ⟨q, rfl, hq⟩
      · left
        exact List.cons_prefix_cons.mpr ⟨rfl, h1⟩
      · right
        exact ⟨q, by rw [List.cons_append], hq⟩

theorem suffix_append_cases :
    ∀ (U V u : List Char), u <:+ U ++ V → u <:+ V ∨ ∃ p, u = p ++ V ∧ p <:+ U := by
  intro U
  induction U with
  | nil =>
    intro V u h
    left
    exact h
  | cons a U' ih =>
    intro V u h
    rw [List.cons_append] at h
    rcases List.suffix_cons_iff.mp h with rfl | h'
    · right
      exact ⟨a :: U', by rw [List.cons_append], List.suffix_refl _⟩
    · rcases ih V u h' with h1 | ⟨p, rfl, hp⟩
      · left
        exact h1
      · right
        exact ⟨p, rfl, hp.trans (List.suffix_cons a U')⟩

theorem infix_append_cases (U V t : List Char) (h : t <:+: U ++ V) :
    t <:+: U ∨ t <:+: V ∨ ∃ p q, t = p ++ q ∧ p ≠ [] ∧ p <:+ U ∧ q <+: V := by
  obtain ⟨u, htu, hu⟩ := List.infix_iff_prefix_suffix.mp h
  rcases suffix_append_cases U V u hu with h1 | ⟨p, rfl, hp⟩
  · right; left
    exact List.infix_iff_prefix_suffix.mpr ⟨u, htu, h1⟩
  · rcases prefix_append_cases p V t htu with h2 | ⟨q, rfl, hq⟩
    · left
      exact List.infix_iff_prefix_suffix.mpr ⟨p, h2, hp⟩
    · by_cases hp0 : p = []
      · subst hp0
        right; left
        exact infixOfPref hq
      · right; right
        exact ⟨p, q, rfl, hp0, hp, hq⟩

theorem placeholder_eq_cons : placeholderChars = '*' :: "**TOKEN***".toList := by
  decide

theorem placeholder_eq_concat :
    placeholderChars = "***TOKEN**".toList ++ ['*'] := by
  decide

theorem suffix_placeholder_star (p : List Char) (hp : p <:+ placeholderChars)
    (hne : p ≠ []) : '*' ∈ p := by
  rw [placeholder_eq_concat] at hp
  rcases suffix_append_cases _ _ p hp with h1 | ⟨q, rfl, _⟩
  · rcases List.suffix_cons_iff.mp h1 with rfl | h2
    · simp
    · exact absurd (List.suffix_nil.mp h2) hne
  · simp

theorem pref_of_sanitized (old : List Char) :
    ∀ n s t, s.length ≤ n → '*' ∉ t →
      t <+: pyReplace old placeholderChars s → t <+: s := by
  intro n
  induction n with
  | zero =>
    intro s t h1 _ h3
    have hs : s = [] := List.eq_nil_of_length_eq_zero (Nat.le_zero.mp h1)
    subst hs
    rw [pyReplace_nil] at h3
    exact h3
  | succ n ih =>
    intro s t h1 h2 h3
    cases s with
    | nil =>
      rw [pyReplace_nil] at h3
      exact h3
    | cons c cs =>
      rw [pyReplace_cons] at h3
      by_cases hc : old ≠ [] ∧ old.isPrefixOf (c :: cs)
      · rw [if_pos hc] at h3
        cases t with
        | nil => exact List.nil_prefix
        | cons b t' =>
          rw [placeholder_eq_cons, List.cons_append] at h3
          have hb := (List.cons_prefix_cons.mp h3).1
          subst hb
          exact absurd (List.mem_cons_self _ _) h2
      · rw [if_neg hc] at h3
        cases t with
        | nil => exact List.nil_prefix
        | cons b t' =>
          obtain ⟨rfl, h'⟩ := List.cons_prefix_cons.mp h3
          have ht' : t' <+: cs := by
            refine ih cs t' ?_ (fun hm => h2 (List.mem_cons_of_mem _ hm)) h'
            simp only [List.length_cons] at h1
            omega
          exact List.cons_prefix_cons.mpr ⟨rfl, ht'⟩

theorem sanitize_no_token_aux (old : List Char) (h1 : old ≠ []) (h2 : '*' ∉ old)
    (h3 : ¬ old <:+: placeholderChars) :
    ∀ n s, s.length ≤ n → ¬ old <:+: pyReplace old placeholderChars s := by
  intro n
  induction n with
  | zero =>
    intro s hl h
    have hs : s = [] := List.eq_nil_of_length_eq_zero (Nat.le_zero.mp hl)
    subst hs
    rw [pyReplace_nil] at h
    exact h1 (List.infix_nil.mp h)
  | succ n ih =>
    intro s hl h
    cases s with
    | nil =>
      rw [pyReplace_nil] at h
      exact h1 (List.infix_nil.mp h)
    | cons c cs =>
      rw [pyReplace_cons] at h
      by_cases hc : old ≠ [] ∧ old.isPrefixOf (c :: cs)
      · rw [if_pos hc] at h
        rcases infix_append_cases _ _ _ h with hA | hB | ⟨p, q, heq, hpne, hp, _⟩
        · exact h3 hA
        · refine ih (List.drop old.length (c :: cs)) ?_ hB
          have hop : 0 < old.length := List.length_pos.mpr h1
          simp only [List.length_drop, List.length_cons]
          simp only [List.length_cons] at hl
          omega
        · have hst := suffix_placeholder_star p hp hpne
          apply h2
          rw [heq]
          exact List.mem_append_left _ hst
      · rw [if_neg hc] at h
        have hnp : ¬ old.isPrefixOf (c :: cs) := fun hh => hc ⟨h1, hh⟩
        rcases List.infix_cons_iff.mp h with hpre | hrest
        · have hall : old <+: pyReplace old placeholderChars (c :: cs) := by
            rw [pyReplace_cons, if_neg hc]
            exact hpre
          have horig :=
            pref_of_sanitized old (c :: cs).length (c :: cs) old le_rfl h2 hall
          exact hnp (prefOfBool.mpr horig)
        · refine ih cs ?_ hrest
          simp only [List.length_cons] at hl
          omega

theorem sanitize_placeholder_aux (old : List Char) (h1 : old ≠ []) :
    ∀ n s, s.length ≤ n → old <:+: s →
      placeholderChars <:+: pyReplace old placeholderChars s := by
  intro n
  induction n with
  | zero =>
    intro s hl hocc
    have hs : s = [] := List.eq_nil_of_length_eq_zero (Nat.le_zero.mp hl)
    subst hs
    exact absurd (List.infix_nil.mp hocc) h1
  | succ n ih =>
    intro s hl hocc
    cases s with
    | nil => exact absurd (List.infix_nil.mp hocc) h1
    | cons c cs =>
      rw [pyReplace_cons]
      by_cases hc : old ≠ [] ∧ old.isPrefixOf (c :: cs)
      · rw [if_pos hc]
        exact infixOfPref (List.prefix_append _ _)
      · rw [if_neg hc]
        have hnp : ¬ old.isPrefixOf (c :: cs) := fun hh => hc ⟨h1, hh⟩
        rcases List.infix_cons_iff.mp hocc with hpre | hrest
        · exact absurd (prefOfBool.mpr hpre) hnp
        · refine infixCons c (ih cs ?_ hrest)
          simp only [List.length_cons] at hl
          omega

/-!
## Claim theorems
-/

/-- C1 (amended): in the failure report rendered by `sync_mirror`, the
joined invocation arguments, the stdout and the stderr are each included
only after `sanitize`, which replaces every literal occurrence of the
credential with the placeholder `***TOKEN***`; provided the credential is
non-empty, contains no asterisk and does not itself occur inside the
placeholder string, the sanitized texts contain no occurrence of the raw
credential, and wherever the credential occurred the placeholder occurs in
the sanitized text. -/
theorem c1_failure_report_sanitized (token cmdJoined outText errText : List Char)
    (h1 : token ≠ []) (h2 : '*' ∉ token) (h3 : ¬ token <:+: placeholderChars) :
    ¬ token <:+: sanitize token cmdJoined ∧
    ¬ token <:+: sanitize token outText ∧
    ¬ token <:+: sanitize token errText ∧
    (token <:+: errText → placeholderChars <:+: sanitize token errText) := by
  refine ⟨?_, ?_, ?_, ?_⟩
  · exact sanitize_no_token_aux token h1 h2 h3 cmdJoined.length cmdJoined le_rfl
  · exact sanitize_no_token_aux token h1 h2 h3 outText.length outText le_rfl
  · exact sanitize_no_token_aux token h1 h2 h3 errText.length errText le_rfl
  · intro hocc
    exact sanitize_placeholder_aux token h1 errText.length errText le_rfl hocc

/-- C1 witness: a concrete credential and captured stderr, with the
hypotheses of `c1_failure_report_sanitized` discharged by evaluation. -/
theorem c1_witness :
    ¬ ("ghp_secret123".toList <:+:
        sanitize "ghp_secret123".toList "fatal: auth ghp_secret123 rejected".toList) ∧
    placeholderChars <:+:
      sanitize "ghp_secret123".toList "fatal: auth ghp_secret123 rejected".toList := by
  have h := c1_failure_report_sanitized "ghp_secret123".toList "git".toList
    "out".toList "fatal: auth ghp_secret123 rejected".toList
    (by decide) (by decide) (by decide)
  exact ⟨h.2.2.1, h.2.2.2 (by decide)⟩

/-- C1 counterexample: with the credential `TOKEN` (a substring of the
placeholder), the stderr `remote: TOKEN` sanitizes to
`remote: ***TOKEN***`, which still contains the raw credential — so the
claim's "does not contain the raw credential substring anywhere" is false
as stated. -/
theorem c1_counterexample :
    "TOKEN".toList <:+: sanitize "TOKEN".toList "remote: TOKEN".toList := by
  decide

/-- C4 (amended): for a mirror URL of the form `https://` followed by a
remainder in which `https://` does not occur again, the push destination
is exactly the URL with the credential embedded as the
`x-access-token:<token>@` user-info component; a mirror URL in which
`https://` does not occur at all is left unchanged, with no credential
embedded. -/
theorem c4_push_url (token rest url : List Char)
    (hrest : ¬ httpsChars <:+: rest) (hurl : ¬ httpsChars <:+: url) :
    buildPushUrl token (httpsChars ++ rest) = authReplacement token ++ rest ∧
    buildPushUrl token url = url := by
  constructor
  · show pyReplace httpsChars (authReplacement token) (httpsChars ++ rest) = _
    rw [replace_head _ _ _ (by decide), replace_unchanged _ _ _ hrest]
  · exact replace_unchanged _ _ _ hurl

/-- C4 witness: a concrete https mirror URL gets the credential embedded
as user-info. -/
theorem c4_witness :
    buildPushUrl "tok".toList (httpsChars ++ "github.com/org/repo.git".toList) =
      authReplacement "tok".toList ++ "github.com/org/repo.git".toList :=
  (c4_push_url "tok".toList "github.com/org/repo.git".toList "x".toList
    (by decide) (by decide)).1

/-- C4 counterexample: for the mirror URL `http://example.com/repo.git`
(not https), the constructed push URL is the unchanged URL and contains no
occurrence of the credential, contradicting "the access credential is
embedded ... for every form of mirror URL". -/
theorem c4_counterexample :
    buildPushUrl "tok".toList "http://example.com/repo.git".toList =
      "http://example.com/repo.git".toList ∧
    ¬ "tok".toList <:+:
        buildPushUrl "tok".toList "http://example.com/repo.git".toList := by
  constructor
  · decide
  · decide

theorem classify_eq_some_iff (pm : List (String × String)) (r : Repo) (t : MirrorTask) :
    classify pm r = some t ↔
      dictGet pm "repo-type" = some "mirror" ∧
      dictGet pm "mirror-source" = some t.source ∧ t.source ≠ "" ∧
      t.name = r.name ∧ t.mirror = r.clone_url := by
  obtain ⟨tn, tm, ts⟩ := t
  unfold classify
  by_cases h1 : dictGet pm "repo-type" = some "mirror"
  · rw [if_pos h1]
    simp only [h1, true_and]
    cases hms : dictGet pm "mirror-source" with
    | none => simp
    | some src =>
      have hred : (match some src with
          | some src => if src ≠ "" then
              some (⟨r.name, r.clone_url, src⟩ : MirrorTask) else none
          | none => none) =
          if src ≠ "" then some (⟨r.name, r.clone_url, src⟩ : MirrorTask) else none :=
        rfl
      rw [hred]
      by_cases hsrc : src ≠ ""
      · rw [if_pos hsrc]
        simp only [Option.some.injEq, MirrorTask.mk.injEq]
        constructor
        · rintro ⟨hn, hm, hs⟩
          subst hn hm hs
          exact ⟨rfl, hsrc, rfl, rfl⟩
        · rintro ⟨hsome, _, hn, hm⟩
          subst hn hm
          exact ⟨rfl, rfl, hsome⟩
      · rw [if_neg hsrc]
        push_neg at hsrc
        subst hsrc
        simp only [Option.some.injEq, MirrorTask.mk.injEq]
        constructor
        · intro h
          cases h
        · rintro ⟨hsome, hne, _, _⟩
          exact absurd hsome.symm hne
  · rw [if_neg h1]
    simp [h1]

theorem classified_source_ne (props : String → List (String × String))
    (repos : List Repo) : ∀ t ∈ get_mirror_repos props repos, t.source ≠ "" := by
  intro t ht
  unfold get_mirror_repos at ht
  rw [List.mem_filterMap] at ht
  obtain ⟨r, _, hr⟩ := ht
  exact ((classify_eq_some_iff _ _ _).mp hr).2.2.1

theorem syncStep_foldl (outcome : MirrorTask → Bool) :
    ∀ (tasks att : List MirrorTask) (s f : Nat),
      tasks.foldl (syncStep outcome) (att, s, f) =
        (att ++ tasks, s + (tasks.filter (fun t => outcome t)).length,
          f + (tasks.filter (fun t => !(outcome t))).length) := by
  intro tasks
  induction tasks with
  | nil =>
    intro att s f
    simp
  | cons t ts ih =>
    intro att s f
    rw [List.foldl_cons]
    cases h : outcome t with
    | true =>
      rw [show syncStep outcome (att, s, f) t = (att ++ [t], s + 1, f) from by
        simp [syncStep, h]]
      rw [ih]
      simp [List.filter_cons, h, Prod.ext_iff]
      omega
    | false =>
      rw [show syncStep outcome (att, s, f) t = (att ++ [t], s, f + 1) from by
        simp [syncStep, h]]
      rw [ih]
      simp [List.filter_cons, h, Prod.ext_iff]
      omega

theorem filter_split_length (p : MirrorTask → Bool) (l : List MirrorTask) :
    (l.filter p).length + (l.filter (fun t => !(p t))).length = l.length := by
  induction l with
  | nil => rfl
  | cons t ts ih =>
    cases h : p t <;> simp [List.filter_cons, h] <;> omega

theorem dictGet_skip (k : String) (acc : Option String) :
    ∀ l : List (String × String), (∀ p ∈ l, p.1 ≠ k) →
      l.foldl (fun acc p => if p.1 = k then some p.2 else acc) acc = acc := by
  intro l
  induction l generalizing acc with
  | nil => intro _; rfl
  | cons p ps ih =>
    intro h
    rw [List.foldl_cons, if_neg (h p (List.mem_cons_self p ps))]
    exact ih acc (fun q hq => h q (List.mem_cons_of_mem _ hq))

theorem fallible_aborts (oracle : String → PropResponse) (r : Repo) :
    ∀ repos : List Repo, r ∈ repos → 400 ≤ (oracle r.name).status →
      (oracle r.name).status < 600 → (oracle r.name).status ≠ 404 →
      ∃ e, get_mirror_repos_fallible oracle repos = Except.error e := by
  intro repos
  induction repos with
  | nil =>
    intro h
    cases h
  | cons a rest ih =>
    intro hmem hge hlt hne
    unfold get_mirror_repos_fallible
    cases hget : get_repo_custom_properties (oracle a.name) with
    | error e => exact ⟨e, rfl⟩
    | ok pm =>
      rcases List.mem_cons.mp hmem with rfl | hrest
      · exfalso
        unfold get_repo_custom_properties at hget
        rw [if_pos ⟨hge, hlt⟩, if_neg hne] at hget
        cases hget
      · obtain ⟨e, he⟩ := ih hrest hge hlt hne
        refine ⟨e, ?_⟩
        rw [he]

/-- C2: for every non-empty task list, the loop in `sync_all_mirrors`
attempts every task in the discovered order regardless of outcomes (the
attempted trace is the whole task list), the final tally counts total,
successes and failures, and the exit status is 1 exactly when at least one
task failed, else 0. -/
theorem c2_failure_isolation (outcome : MirrorTask → Bool)
    (tasks : List MirrorTask) (h : tasks ≠ []) :
    (sync_all_mirrors outcome tasks).attempted = tasks ∧
    (sync_all_mirrors outcome tasks).succeeded =
      (tasks.filter (fun t => outcome t)).length ∧
    (sync_all_mirrors outcome tasks).failed =
      (tasks.filter (fun t => !(outcome t))).length ∧
    (sync_all_mirrors outcome tasks).succeeded +
      (sync_all_mirrors outcome tasks).failed = tasks.length ∧
    (sync_all_mirrors outcome tasks).exitCode =
      (if 0 < (sync_all_mirrors outcome tasks).failed then 1 else 0) := by
  unfold sync_all_mirrors
  rw [if_neg h, syncStep_foldl]
  refine ⟨by simp, by simp, by simp, ?_, ?_⟩
  · simp only [List.nil_append]
    simpa using filter_split_length (fun t => outcome t) tasks
  · simp only [Nat.zero_add]

/-- C2 witness: three concrete tasks of which exactly the second fails:
all three are attempted in order, the tally is total 3 / succeeded 2 /
failed 1, and the exit status is the failure status 1. -/
theorem c2_witness :
    (sync_all_mirrors wOutcome wTasks).attempted = wTasks ∧
    (sync_all_mirrors wOutcome wTasks).succeeded = 2 ∧
    (sync_all_mirrors wOutcome wTasks).failed = 1 ∧
    (sync_all_mirrors wOutcome wTasks).exitCode = 1 := by
  have h := c2_failure_isolation wOutcome wTasks (by decide)
  refine ⟨h.1, ?_, ?_, ?_⟩
  · rw [h.2.1]
    decide
  · rw [h.2.2.1]
    decide
  · rw [h.2.2.2.2, h.2.2.1]
    decide

/-- C3: a `MirrorTask` is produced from a repository's property map if and
only if `repo-type` is literally `mirror` and `mirror-source` is present
and non-empty; on a match the (unique) task carries the `mirror-source`
value as source and the repository's clone URL as destination; when
`repo-type` differs or is absent no task is produced, regardless of the
other properties. -/
theorem c3_classification (pm : List (String × String)) (r : Repo) (t : MirrorTask) :
    (classify pm r = some t ↔
      dictGet pm "repo-type" = some "mirror" ∧
      dictGet pm "mirror-source" = some t.source ∧ t.source ≠ "" ∧
      t.name = r.name ∧ t.mirror = r.clone_url) ∧
    (dictGet pm "repo-type" ≠ some "mirror" → classify pm r = none) := by
  refine ⟨classify_eq_some_iff pm r t, ?_⟩
  intro hne
  unfold classify
  rw [if_neg hne]

/-- C3 witness: a concrete mirror-tagged repository yields exactly the
expected task, and a repository with a different `repo-type` yields none. -/
theorem c3_witness :
    classify [("repo-type", "mirror"), ("mirror-source", "https://up/x.git")]
        ⟨"m", "https://dest/x.git"⟩ =
      some ⟨"m", "https://dest/x.git", "https://up/x.git"⟩ ∧
    classify [("repo-type", "library"), ("mirror-source", "https://up/x.git")]
        ⟨"m", "https://dest/x.git"⟩ = none := by
  constructor
  · exact (c3_classification [("repo-type", "mirror"),
      ("mirror-source", "https://up/x.git")] ⟨"m", "https://dest/x.git"⟩
      ⟨"m", "https://dest/x.git", "https://up/x.git"⟩).1.mpr
      ⟨by decide, by decide, by decide, rfl, rfl⟩
  · exact (c3_classification [("repo-type", "library"),
      ("mirror-source", "https://up/x.git")] ⟨"m", "https://dest/x.git"⟩
      ⟨"m", "https://dest/x.git", "x"⟩).2 (by decide)

/-- C5 (amended): a 404 from the property endpoint yields an empty
property map rather than an error; any other status in `[400, 600)` —
the exact range `raise_for_status` treats as an error — yields a
transport error, and such an error on any listed repository makes the
whole discovery return an error.  (The claim's "exactly when" fails: a
successful response with an empty property list also yields an empty
map.) -/
theorem c5_property_endpoint (resp : PropResponse) (oracle : String → PropResponse)
    (repos : List Repo) (r : Repo) :
    (resp.status = 404 → get_repo_custom_properties resp = Except.ok []) ∧
    (400 ≤ resp.status → resp.status < 600 → resp.status ≠ 404 →
      get_repo_custom_properties resp = Except.error resp.status) ∧
    (r ∈ repos → 400 ≤ (oracle r.name).status → (oracle r.name).status < 600 →
      (oracle r.name).status ≠ 404 →
      ∃ e, get_mirror_repos_fallible oracle repos = Except.error e) := by
  refine ⟨?_, ?_, fallible_aborts oracle r repos⟩
  · intro h404
    unfold get_repo_custom_properties
    rw [if_pos (by omega), if_pos h404]
  · intro hge hlt hne
    unfold get_repo_custom_properties
    rw [if_pos ⟨hge, hlt⟩, if_neg hne]

/-- C5 witness: a concrete 404 response yields the empty map, and a 500 on
a listed repository's property fetch aborts the whole discovery with an
error. -/
theorem c5_witness :
    get_repo_custom_properties ⟨404, [("a", "b")]⟩ = Except.ok [] ∧
    (∃ e, get_mirror_repos_fallible (fun _ => ⟨500, []⟩) [repoA] =
      Except.error e) := by
  have h := c5_property_endpoint ⟨404, [("a", "b")]⟩ (fun _ => ⟨500, []⟩) [repoA] repoA
  exact ⟨h.1 rfl,
    h.2.2 (List.mem_cons_self _ _) (by decide) (by decide) (by decide)⟩

/-- C5 counterexample: a successful (status 200) response carrying an
empty property list also yields an empty `PropertyMap`, so "returns an
empty PropertyMap exactly when the endpoint responds with HTTP 404" is
false as stated. -/
theorem c5_counterexample :
    get_repo_custom_properties ⟨200, []⟩ = Except.ok [] ∧ (200 : Nat) ≠ 404 :=
  ⟨rfl, by decide⟩

/-- C6: with a listing endpoint serving pages of sizes 100, 100, 37, 0,
`get_org_repos` issues exactly the page requests 1..4 (fixed page size
100), stops after the empty page, and collects the concatenation of all
pages: 237 repositories. -/
theorem c6_pagination :
    get_org_repos pagesFetch 10 1 =
      some ([⟨1, 100⟩, ⟨2, 100⟩, ⟨3, 100⟩, ⟨4, 100⟩],
        List.replicate 100 repoA ++ (List.replicate 100 repoA ++
          (List.replicate 37 repoA ++ []))) ∧
    (List.replicate 100 repoA ++ (List.replicate 100 repoA ++
      (List.replicate 37 repoA ++ ([] : List Repo)))).length = 237 := by
  constructor
  · rfl
  · simp

/-- C7: a repository whose properties mark it as a mirror without a
non-empty `mirror-source` produces no task, emits the omission diagnostic,
and does not abort the run (the remaining repositories are classified
unchanged); consequently every constructed task has a non-empty source. -/
theorem c7_missing_source (props : String → List (String × String)) (r : Repo)
    (rest : List Repo)
    (hm : dictGet (props r.name) "repo-type" = some "mirror")
    (hs : dictGet (props r.name) "mirror-source" = none ∨
      dictGet (props r.name) "mirror-source" = some "") :
    classify (props r.name) r = none ∧
    ("  ✗ Repo " ++ r.name ++ " is marked as mirror but has no mirror-source") ∈
      mirrorLogLines (props r.name) r ∧
    get_mirror_repos props (r :: rest) = get_mirror_repos props rest ∧
    (∀ repos : List Repo, ∀ t ∈ get_mirror_repos props repos, t.source ≠ "") := by
  have hcl : classify (props r.name) r = none := by
    unfold classify
    rw [if_pos hm]
    rcases hs with hs | hs
    · rw [hs]
    · rw [hs]
      simp
  refine ⟨hcl, ?_, ?_, fun repos => classified_source_ne props repos⟩
  · unfold mirrorLogLines
    rw [if_pos hm]
    rcases hs with hs | hs
    · rw [hs]
      simp
    · rw [hs]
      simp
  · unfold get_mirror_repos
    simp [List.filterMap_cons, hcl]

/-- C7 witness: a concrete repository tagged `mirror` with no
`mirror-source`: no task, the diagnostic line is present. -/
theorem c7_witness :
    get_mirror_repos (fun _ => [("repo-type", "mirror")]) [⟨"m", "u"⟩] = [] ∧
    ("  ✗ Repo " ++ "m" ++ " is marked as mirror but has no mirror-source") ∈
      mirrorLogLines [("repo-type", "mirror")] ⟨"m", "u"⟩ := by
  have h := c7_missing_source (fun _ => [("repo-type", "mirror")]) ⟨"m", "u"⟩ []
    (by decide) (Or.inl (by decide))
  exact ⟨h.2.2.1.trans rfl, h.2.1⟩

/-- C8: if the credential or the organization environment variable is
unset (or empty, which Python's truthiness also rejects), the process
prints the explanatory message and exits with status 1, and the bot —
hence any network activity — is never invoked: zero network calls. -/
theorem c8_missing_config (env : String → Option String)
    (bot : String → String → MainResult)
    (h : env "GITHUB_TOKEN" = none ∨ env "GITHUB_TOKEN" = some "" ∨
      env "GITHUB_ORGANIZATION" = none ∨ env "GITHUB_ORGANIZATION" = some "") :
    (mainModel env bot).exitCode = 1 ∧ (mainModel env bot).networkCalls = 0 ∧
    ((mainModel env bot).lines =
        ["Error: GITHUB_TOKEN environment variable is required"] ∨
      (mainModel env bot).lines =
        ["Error: GITHUB_ORGANIZATION environment variable is required"]) := by
  unfold mainModel
  rcases h with h | h | h | h
  · rw [if_pos (show truthyOpt (env "GITHUB_TOKEN") = false from by rw [h]; rfl)]
    exact ⟨rfl, rfl, Or.inl rfl⟩
  · rw [if_pos (show truthyOpt (env "GITHUB_TOKEN") = false from by rw [h]; rfl)]
    exact ⟨rfl, rfl, Or.inl rfl⟩
  · by_cases ht : truthyOpt (env "GITHUB_TOKEN") = false
    · rw [if_pos ht]
      exact ⟨rfl, rfl, Or.inl rfl⟩
    · rw [if_neg ht,
        if_pos (show truthyOpt (env "GITHUB_ORGANIZATION") = false from by
          rw [h]; rfl)]
      exact ⟨rfl, rfl, Or.inr rfl⟩
  · by_cases ht : truthyOpt (env "GITHUB_TOKEN") = false
    · rw [if_pos ht]
      exact ⟨rfl, rfl, Or.inl rfl⟩
    · rw [if_neg ht,
        if_pos (show truthyOpt (env "GITHUB_ORGANIZATION") = false from by
          rw [h]; rfl)]
      exact ⟨rfl, rfl, Or.inr rfl⟩

/-- C8 witness: with no environment variables set at all, the process
exits 1 with zero network calls, whatever the bot would have done. -/
theorem c8_witness :
    (mainModel (fun _ => none) (fun _ _ => ⟨["x"], 0, 7⟩)).exitCode = 1 ∧
    (mainModel (fun _ => none) (fun _ _ => ⟨["x"], 0, 7⟩)).networkCalls = 0 := by
  have h := c8_missing_config (fun _ => none) (fun _ _ => ⟨["x"], 0, 7⟩) (Or.inl rfl)
  exact ⟨h.1, h.2.1⟩

/-- C9: with zero discovered mirror tasks, `sync_all_mirrors` reports
"No mirror repositories found.", attempts no task (the transfer capability
is never invoked) and the process terminates with the success status 0. -/
theorem c9_empty_discovery (outcome : MirrorTask → Bool) :
    sync_all_mirrors outcome [] =
      ⟨[], 0, 0, ["No mirror repositories found."], 0⟩ :=
  rfl

/-- C10: on a successful response whose property list contains several
entries with the same name, the dict comprehension lets later entries
override earlier ones, so the resulting map's value for that name is the
last such entry's value. -/
theorem c10_last_duplicate_wins (resp : PropResponse) (l₁ l₂ : List (String × String))
    (k v : String) (hok : resp.status < 400) (hsplit : resp.props = l₁ ++ (k, v) :: l₂)
    (hlast : ∀ p ∈ l₂, p.1 ≠ k) :
    get_repo_custom_properties resp = Except.ok resp.props ∧
    dictGet resp.props k = some v := by
  constructor
  · unfold get_repo_custom_properties
    rw [if_neg (by omega)]
  · rw [hsplit]
    unfold dictGet
    rw [List.foldl_append, List.foldl_cons, if_pos rfl]
    exact dictGet_skip k (some v) l₂ hlast

/-- C10 witness: a duplicate property name; the lookup returns the second
(last) entry's value. -/
theorem c10_witness :
    get_repo_custom_properties ⟨200, [("a", "1"), ("a", "2")]⟩ =
      Except.ok [("a", "1"), ("a", "2")] ∧
    dictGet [("a", "1"), ("a", "2")] "a" = some "2" := by
  have h := c10_last_duplicate_wins ⟨200, [("a", "1"), ("a", "2")]⟩ [("a", "1")] []
    "a" "2" (by decide) rfl (by simp)
  exact h
